import Mathlib

/-!
Verification development for the Helmer video-generation platform's
orchestration and decision core.

The definitions below are a shallow embedding of the TypeScript source:

* `runDecisionReasoning`  — src/pipeline/decisionReasoning.ts (media-aware variant)
* `runOrchestrator`       — src/index.ts (`runOrchestrator`, the agentic loop)
* `userMediaWorkflowExec` — src/pipeline/orchestrator.ts (`runUserMediaWorkflow`, branch step)
* `runRelevanceMatching`  — src/pipeline/relevanceMatcher.ts
* `scoreAudioByMetadata`  — src/pipeline/relevanceMatcher.ts
* `fetchAndSave`          — src/scraping/fetchAssets.ts
* `sha256Bytes`           — src/utils/hashing.ts (abstracted as a pure byte function)

External collaborators (the OpenAI reasoning/vision services, JSON.parse,
the HTTP downloader, sha256 from node:crypto) are modelled as oracle
parameters: pure functions supplied to the embedded code, universally
quantified in the theorems.  Machine floats in the source only carry
probability-like scores in [0,1]; they are modelled as rationals.
Filesystem side effects (copyFile, writeJson) are modelled by threading the
semantic-map state; console logging and the evaluation-metrics bookkeeping
are not modelled (no claim refers to them).
-/

namespace Helmer

/-! ## Data model (src/types/semanticMap.ts) -/

inductive MediaType
  | image
  | video
  | audio
deriving DecidableEq, Repr

/-- `UserMediaRole` union from src/types/semanticMap.ts. -/
inductive UserMediaRole
  | transform
  | reference
  | style_guide
  | replace
deriving DecidableEq, Repr

/-- `UserMedia` record written by Stage 1 onto the semantic map. -/
structure UserMedia where
  provided : Bool
  modality : MediaType
  role : UserMediaRole
  transformation_intent : Option String := none
  file_path : String := ""
deriving DecidableEq, Repr

/-- `FetchedAsset` record (candidate asset, retrieved or generated). -/
structure FetchedAsset where
  type : MediaType
  filename : String
  source : String := ""
  alt : Option String := none
  query_used : Option String := none
  sha256 : String := ""
  relevance_score : Option ℚ := none
deriving DecidableEq, Repr

/-- `DecisionReasoning` record.  `final_decision` is a plain string in the
map: the LLM-delegated path casts whatever string the service returned,
so unrecognized values can flow through. -/
structure DecisionRecord where
  reasoning_trace : String
  final_decision : String
  confidence : ℚ
deriving DecidableEq, Repr

/-- `EnrichedDecision` from decisionReasoning.ts: decision plus the
media-use strategy fields stamped by `commit`. -/
structure EnrichedDecision extends DecisionRecord where
  has_user_media : Option Bool := none
  media_use_strategy : Option String := none
  user_asset_path : Option String := none
deriving DecidableEq, Repr

structure RealismScoring where
  realism_score : ℚ
deriving DecidableEq, Repr

/-- The persisted semantic map (the fields the core reads and writes). -/
structure SemanticMap where
  user_prompt : Option String := none
  realism_scoring : Option RealismScoring := none
  market_availability_estimate : Option ℚ := none
  user_media : Option UserMedia := none
  decision_reasoning : Option EnrichedDecision := none
  fetched_assets : List FetchedAsset := []
  relevant_assets : List FetchedAsset := []
deriving DecidableEq, Repr

/-! ## Decision engine (src/pipeline/decisionReasoning.ts, media-aware variant) -/

/-- `resolveMediaStrategy(role, modality)` from decisionReasoning.ts. -/
def resolveMediaStrategy (role : UserMediaRole) (modality : MediaType) : String :=
  match role with
  | .transform => if modality = .audio then "audio_reference" else "img2img"
  | .style_guide => "style_transfer"
  | .reference => "context_only"
  | .replace => "context_only"

/-- The `commit` helper inside `runDecisionReasoning`: stamps the decision
and, when user media is present, the media-use strategy fields, then
writes the map. -/
def commitDecision (m : SemanticMap) (decision reasoning : String)
    (confidence : ℚ) : SemanticMap :=
  let base : EnrichedDecision :=
    { reasoning_trace := reasoning, final_decision := decision, confidence := confidence }
  let enriched : EnrichedDecision :=
    match m.user_media with
    | some um =>
      if um.provided then
        let strategy := resolveMediaStrategy um.role um.modality
        { base with
            has_user_media := some true
            media_use_strategy := some strategy
            user_asset_path :=
              if strategy = "img2img" ∨ strategy = "audio_reference" then
                some um.file_path
              else none }
      else base
    | none => base
  { m with decision_reasoning := some enriched }

/-- Shape of a successfully parsed reasoning-service response
(`safeJsonParse<DecisionReasoning>`): every field may be absent. -/
structure ParsedDecision where
  reasoning_trace : Option String := none
  final_decision : Option String := none
  confidence : Option ℚ := none
deriving DecidableEq, Repr

/-- Result of `runDecisionReasoning` together with whether the
LLM fallback classifier was consulted. -/
structure DecisionOutcome where
  map : SemanticMap
  usedLLM : Bool
deriving DecidableEq, Repr

/-- `semanticMap.realism_scoring?.realism_score ?? 0.5`. -/
def realismOf (m : SemanticMap) : ℚ :=
  (m.realism_scoring.map (fun r => r.realism_score)).getD (1/2)

/-- `semanticMap.market_availability_estimate ?? 0.5`. -/
def scarcityOf (m : SemanticMap) : ℚ :=
  m.market_availability_estimate.getD (1/2)

/-- Priorities 1–3 of `runDecisionReasoning` (retry-zero override, scarcity
override, high-confidence zone, LLM-delegated ambiguous zone). -/
def decisionReasoningRest (ask : SemanticMap → String)
    (safeJsonParse : String → Option ParsedDecision)
    (m : SemanticMap) (attemptNumber : Nat) : DecisionOutcome :=
  let previousResults := m.relevant_assets.length
  let realism := realismOf m
  let scarcity := scarcityOf m
  if attemptNumber > 1 ∧ previousResults = 0 then
    ⟨commitDecision m "generate_with_model"
      "Previous attempt returned zero results. Forcing generation." (95/100), false⟩
  else if scarcity < 3/10 then
    ⟨commitDecision m "generate_with_model"
      "Market availability extremely low. Generating synthetic media." (9/10), false⟩
  else if realism > 8/10 ∧ scarcity > 7/10 then
    ⟨commitDecision m "fetch_from_web"
      "High realism and high stock availability. Fetching from web." (85/100), false⟩
  else if realism < 3/10 then
    ⟨commitDecision m "generate_with_model"
      "Low realism indicates fantasy or abstract content. Generating." (85/100), false⟩
  else
    let raw := ask m
    let decisionData := (safeJsonParse raw).getD
      { reasoning_trace := some "Fallback to hybrid due to parse failure."
        final_decision := some "hybrid_fetch_and_enhance"
        confidence := some (3/5) }
    let decision := decisionData.final_decision.getD "hybrid_fetch_and_enhance"
    ⟨commitDecision m decision (decisionData.reasoning_trace.getD "")
      (decisionData.confidence.getD (3/5)), true⟩

/-- `runDecisionReasoning(attemptNumber)` from decisionReasoning.ts.
`ask` is the reasoning service (`askDecisionEngine`); `safeJsonParse` is
the behaviour of `JSON.parse` wrapped in try/catch.  Throws (as
`Except.error`) exactly when the semantic map has no `user_prompt`. -/
def transformReasonMsg : String :=
  "User uploaded media and requested a direct transformation. Generation required."

def styleGuideReasonMsg : String :=
  "User provided media as a style reference. Style-transfer generation required."

def runDecisionReasoning (ask : SemanticMap → String)
    (safeJsonParse : String → Option ParsedDecision)
    (m : SemanticMap) (attemptNumber : Nat := 1) : Except String DecisionOutcome :=
  if m.user_prompt.isNone then
    .error "Semantic map not found. Please run prompt understanding first."
  else
    match m.user_media with
    | some um =>
      if um.provided then
        if um.role = .transform then
          .ok ⟨commitDecision m "generate_with_model" transformReasonMsg (97/100), false⟩
        else if um.role = .style_guide then
          .ok ⟨commitDecision m "generate_with_model" styleGuideReasonMsg (95/100), false⟩
        else
          .ok (decisionReasoningRest ask safeJsonParse m attemptNumber)
      else
        .ok (decisionReasoningRest ask safeJsonParse m attemptNumber)
    | none => .ok (decisionReasoningRest ask safeJsonParse m attemptNumber)

/-- The parse-failure fallback object from `runDecisionReasoning`. -/
def parseFailureMsg : String := "Fallback to hybrid due to parse failure."

/-! ## Orchestrator (src/index.ts, `runOrchestrator`)

The six pipeline stages are effectful collaborators from the orchestrator's
point of view (each reads and rewrites the persisted semantic map, and may
throw).  They are modelled as a record of state transformers; the
orchestrator's own control flow — the agentic retry loop — is embedded
exactly. -/

structure Stages where
  promptUnderstanding : String → SemanticMap → Except String SemanticMap
  decisionReasoning : Nat → SemanticMap → Except String SemanticMap
  fetchAssets : SemanticMap → Except String SemanticMap
  generateWithFal : SemanticMap → Except String SemanticMap
  relevanceMatching : SemanticMap → Except String SemanticMap
  assetClassification : SemanticMap → Except String SemanticMap

/-- `MAX_RETRIES = 2` — total attempts 3. -/
def MAX_RETRIES : Nat := 2

/-- The execution phase of one orchestrator attempt: branch on the committed
decision string (`generate_with_model` / `fetch_from_web` /
`hybrid_fetch_and_enhance` / anything else falls back to fetch). -/
def executeDecision (st : Stages) (decision : String) (m : SemanticMap) :
    Except String SemanticMap :=
  if decision = "generate_with_model" then st.generateWithFal m
  else if decision = "fetch_from_web" ∨ decision = "hybrid_fetch_and_enhance" then
    match st.fetchAssets m with
    | .error e => .error e
    | .ok m1 =>
      if decision = "hybrid_fetch_and_enhance" then st.generateWithFal m1 else .ok m1
  else st.fetchAssets m

/-- The values the orchestrator inspects after one pass over the stages. -/
structure PassInfo where
  decision : String
  resolvedRole : Option UserMediaRole
  isTransformRun : Bool
  satisfactionThreshold : Nat
  relevantCount : Nat
deriving DecidableEq, Repr

/-- `semanticMap.decision_reasoning?.final_decision ?? ""`. -/
def mapDecision (m : SemanticMap) : String :=
  (m.decision_reasoning.map (fun d => d.final_decision)).getD ""

/-- `semanticMap.user_media?.role` — the role resolved by Stage 1. -/
def mapRole (m : SemanticMap) : Option UserMediaRole :=
  m.user_media.map (fun um => um.role)

/-- `resolvedRole === "transform" || resolvedRole === "style_guide"`. -/
def mapIsTransformRun (m : SemanticMap) : Bool :=
  mapRole m = some .transform ∨ mapRole m = some .style_guide

/-- `isTransformRun ? 1 : 3` — the context-dependent satisfaction bar. -/
def mapThreshold (m : SemanticMap) : Nat :=
  if mapIsTransformRun m then 1 else 3

/-- One pass of the agentic loop body: Stage 1, Stage 2, read the map
(decision string, resolved media role, context-dependent satisfaction
threshold), execute the chosen branch, relevance matching, asset
classification, read the relevant assets. -/
def orchestratorPass (st : Stages) (currentPrompt : String) (attemptNumber : Nat)
    (m0 : SemanticMap) : Except String (SemanticMap × PassInfo) :=
  match st.promptUnderstanding currentPrompt m0 with
  | .error e => .error e
  | .ok m1 =>
    match st.decisionReasoning attemptNumber m1 with
    | .error e => .error e
    | .ok m2 =>
      match executeDecision st (mapDecision m2) m2 with
      | .error e => .error e
      | .ok m3 =>
        match st.relevanceMatching m3 with
        | .error e => .error e
        | .ok m4 =>
          match st.assetClassification m4 with
          | .error e => .error e
          | .ok m5 =>
            .ok (m5, { decision := mapDecision m2, resolvedRole := mapRole m2,
                       isTransformRun := mapIsTransformRun m2,
                       satisfactionThreshold := mapThreshold m2,
                       relevantCount := m5.relevant_assets.length })

/-- Terminal state of a run of the orchestrator: whether satisfaction was
reached, the final attempt counter, how many loop passes executed, and the
final semantic map.  A run always produces a `RunResult` — exhaustion is a
reported outcome, not an exception. -/
structure RunResult where
  satisfied : Bool
  attempts : Nat
  passes : Nat
  finalMap : SemanticMap
deriving DecidableEq, Repr

/-- The deterministic prompt mutation applied before a retry. -/
def retryPrompt (initialPrompt : String) : String :=
  "highly detailed cinematic professional stock " ++ initialPrompt

/-- The `while (attempts <= MAX_RETRIES && !satisfied)` loop.  `fuel` is the
number of loop iterations still permitted, i.e. `MAX_RETRIES + 1 - attempts`;
a stage error is caught and increments the attempt counter, a transform run
is accepted even with zero relevant assets, and otherwise the prompt is
mutated and the attempt counter incremented. -/
def orchestratorLoop (st : Stages) (initialPrompt : String) :
    Nat → String → Nat → Nat → SemanticMap → RunResult
  | 0, _, attempts, passes, m =>
    { satisfied := false, attempts := attempts, passes := passes, finalMap := m }
  | fuel + 1, currentPrompt, attempts, passes, m =>
    match orchestratorPass st currentPrompt (attempts + 1) m with
    | .error _ =>
      orchestratorLoop st initialPrompt fuel currentPrompt (attempts + 1) (passes + 1) m
    | .ok (m', info) =>
      if info.satisfactionThreshold ≤ info.relevantCount then
        { satisfied := true, attempts := attempts, passes := passes + 1, finalMap := m' }
      else if info.isTransformRun then
        { satisfied := true, attempts := attempts, passes := passes + 1, finalMap := m' }
      else
        orchestratorLoop st initialPrompt fuel (retryPrompt initialPrompt)
          (attempts + 1) (passes + 1) m'

/-- `runOrchestrator(initialPrompt, ...)` from src/index.ts. -/
def runOrchestrator (st : Stages) (initialPrompt : String) (m0 : SemanticMap) :
    RunResult :=
  orchestratorLoop st initialPrompt (MAX_RETRIES + 1) initialPrompt 0 0 m0

/-! ## `runUserMediaWorkflow` branch step (src/pipeline/orchestrator.ts) -/

/-- Run fetch and then relevance matching (the recognized fetch path and the
fallback path of `runUserMediaWorkflow`). -/
def fetchThenRelevance (st : Stages) (m : SemanticMap) : Except String SemanticMap :=
  match st.fetchAssets m with
  | .error e => .error e
  | .ok m1 => st.relevanceMatching m1

/-- `semanticMap.decision_reasoning?.final_decision` as read by
`runUserMediaWorkflow` (possibly absent). -/
def workflowDecision (m : SemanticMap) : Option String :=
  m.decision_reasoning.map (fun d => d.final_decision)

/-- The decision branch of `runUserMediaWorkflow` (after `processUserMedia`
and `runDecisionReasoning` have written the map): dispatch on
`decision_reasoning?.final_decision`. -/
def userMediaWorkflowExec (st : Stages) (m : SemanticMap) : Except String SemanticMap :=
  if workflowDecision m = some "fetch_from_web" then
    fetchThenRelevance st m
  else if workflowDecision m = some "generate_with_model" then
    match st.generateWithFal m with
    | .error e => .error e
    | .ok m1 => st.relevanceMatching m1
  else if workflowDecision m = some "enhance_existing_asset" then
    st.relevanceMatching m
  else
    fetchThenRelevance st m

/-! ## Relevance matcher (src/pipeline/relevanceMatcher.ts)

The OpenAI calls (intent extraction, GPT audio scoring, GPT-4o vision batch
scoring) and the image/frame pre-processing are oracles; everything the
module itself computes — the bypass, the modality split, batching, the
token-overlap fallback scorer and the threshold filter — is embedded. -/

def BATCH_SIZE : Nat := 8

/-- `MIN_SCORE = 0.55` — the selection threshold constant. -/
def MIN_SCORE : ℚ := 11/20

/-- The threshold value applied at the audio keep site
(`if (score >= MIN_SCORE)` in the audio loop). -/
def audioMinScore : ℚ := MIN_SCORE

/-- The threshold value applied at the image/video keep site
(`if (r.score >= MIN_SCORE)` in the batch loop). -/
def mediaMinScore : ℚ := MIN_SCORE

def REL_IMG : String := "scrape_assets/relevant_assets/images"
def REL_VID : String := "scrape_assets/relevant_assets/videos"
def REL_AUD : String := "scrape_assets/relevant_assets/audio"

/-- The structured intent returned by `extractIntent`. -/
structure Intent where
  primary_subject : String := ""
  primary_action : String := ""
  supporting_objects : List String := []
  relationships : List String := []
  conflicting_actions_to_reject : List String := []
deriving DecidableEq, Repr

def stopWords : List String :=
  ["a", "an", "the", "for", "and", "or", "of", "to", "in", "is", "it"]

/-- Character-wise lowercasing (`String.prototype.toLowerCase` for the
ASCII range the heuristic cares about). -/
def lowerStr (s : String) : String := String.mk (s.toList.map Char.toLower)

/-- Split a character list at every character satisfying `p`. -/
def splitCharsAux (p : Char → Bool) : List Char → List Char → List (List Char)
  | [], cur => [cur.reverse]
  | c :: cs, cur =>
    if p c then cur.reverse :: splitCharsAux p cs []
    else splitCharsAux p cs (c :: cur)

/-- Split a string on whitespace (`s.split(/\s+/)` up to empty segments,
which every caller filters out). -/
def splitWs (s : String) : List String :=
  (splitCharsAux (fun c => c.isWhitespace) s.toList []).map (fun cs => String.mk cs)

/-- `s.split(/\s+/).filter(w => w.length > 2 && !stopWords.has(w))`. -/
def tokenize (s : String) : List String :=
  (splitWs s).filter (fun w => decide (w.length > 2) && !(stopWords.contains w))

/-- `[...new Set(l)]` — deduplicate keeping first occurrences. -/
def dedupFirst (l : List String) : List String :=
  l.foldl (fun acc x => if acc.contains x then acc else acc ++ [x]) []

/-- `path.basename` (POSIX separators). -/
def basename (p : String) : String :=
  ((splitCharsAux (fun c => c = '/') p.toList []).map (fun cs => String.mk cs)).getLastD p

/-- Substring occurrence on character lists. -/
def containsSub (s pat : List Char) : Bool :=
  match s with
  | [] => pat.isEmpty
  | _ :: rest => pat.isPrefixOf s || containsSub rest pat

/-- `String.prototype.includes` (substring test; the empty pattern is
always contained). -/
def strContains (s pat : String) : Bool := containsSub s.toList pat.toList

/-- `l.join(sep)`. -/
def joinSep (sep : String) : List String → String
  | [] => ""
  | [x] => x
  | x :: xs => x ++ sep ++ joinSep sep xs

/-- `[subject, ...objects, ...relationships].filter(Boolean)` with the
lowercasing applied by `scoreAudioByMetadata`. -/
def intentPhrases (intent : Intent) : List String :=
  ([lowerStr intent.primary_subject] ++ intent.supporting_objects.map lowerStr
    ++ intent.relationships.map lowerStr).filter (fun s => !s.isEmpty)

/-- `[...new Set(allPhrases.flatMap(tokenize))]` — the tokens the metadata
fallback scorer matches against. -/
def intentMatchTokens (intent : Intent) : List String :=
  dedupFirst ((intentPhrases intent).map tokenize).flatten

/-- The searchable metadata string: basename, alt text, originating query
and source, joined and lowercased. -/
def searchableText (asset : FetchedAsset) : String :=
  lowerStr (joinSep " "
    [basename asset.filename, asset.alt.getD "", asset.query_used.getD "",
      asset.source])

/-- `scoreAudioByMetadata(asset, intent)` — deterministic token-overlap
heuristic with a query-match boost, used when GPT scoring is unavailable. -/
def scoreAudioByMetadata (asset : FetchedAsset) (intent : Intent) : ℚ :=
  let tokens := intentMatchTokens intent
  if tokens.length = 0 then 1/2
  else
    let searchable := searchableText asset
    let matchCount := (tokens.filter (fun t => strContains searchable t)).length
    let queryText := lowerStr (asset.query_used.getD "")
    let queryTokens := tokenize queryText
    let intentTokens := tokenize (joinSep " " (intentPhrases intent))
    let queryOverlap := (intentTokens.filter (fun t => queryTokens.contains t)).length
    let queryBoost : ℚ :=
      if intentTokens.length > 0 then
        ((queryOverlap : ℚ) / (intentTokens.length : ℚ)) * (2/5)
      else 0
    let baseScore : ℚ := (matchCount : ℚ) / (tokens.length : ℚ)
    min 1 (baseScore + queryBoost)

/-- The external scoring services and image pre-processing, as oracles:
`gptAudioScore` is `none` when the GPT call throws (triggering the metadata
fallback); `assetValid` says whether `processImageForAPI` / frame
extraction produced any usable data URLs for the asset; `visionBatchScore`
is the parsed `results` array (index/score pairs) of one batch call. -/
structure RelevanceOracles where
  extractIntent : String → Intent
  gptAudioScore : FetchedAsset → Option ℚ
  assetValid : FetchedAsset → Bool
  visionBatchScore : List FetchedAsset → List (Nat × ℚ)

/-- Result of the relevance stage plus the number of scoring-service calls
it performed. -/
structure RelevanceResult where
  map : SemanticMap
  scoringCalls : Nat
deriving Repr

def relTargetDir : MediaType → String
  | .image => REL_IMG
  | .video => REL_VID
  | .audio => REL_AUD

/-- Copying a kept asset into the relevant-assets directory: the map entry
points at the new location. -/
def rebaseAsset (a : FetchedAsset) : FetchedAsset :=
  { a with filename := relTargetDir a.type ++ "/" ++ basename a.filename }

/-- The GPT audio score, or the metadata fallback when the call failed. -/
def scoreAudioAsset (oc : RelevanceOracles) (intent : Intent) (a : FetchedAsset) : ℚ :=
  match oc.gptAudioScore a with
  | some s => s
  | none => scoreAudioByMetadata a intent

/-- The audio keep site: selected iff `score >= MIN_SCORE`. -/
def keepAudio (oc : RelevanceOracles) (intent : Intent) (a : FetchedAsset) :
    Option FetchedAsset :=
  if audioMinScore ≤ scoreAudioAsset oc intent a then some (rebaseAsset a) else none

/-- The image/video keep site: selected iff `r.score >= MIN_SCORE`; the
kept entry carries its relevance score. -/
def keepMedia (asset : FetchedAsset) (s : ℚ) : Option FetchedAsset :=
  if mediaMinScore ≤ s then some { rebaseAsset asset with relevance_score := some s }
  else none

/-- `for (let i = 0; i < mediaToScore.length; i += BATCH_SIZE)`. -/
def toBatches : List FetchedAsset → List (List FetchedAsset)
  | [] => []
  | l@(_ :: _) => l.take BATCH_SIZE :: toBatches (l.drop BATCH_SIZE)
  termination_by l => l.length
  decreasing_by simp_all [BATCH_SIZE]; omega

/-- One image/video batch: assets without usable data URLs are skipped, an
all-invalid batch makes no call, otherwise one vision call scores the valid
assets and each returned index/score pair is filtered at the threshold. -/
def processBatch (oc : RelevanceOracles) (batch : List FetchedAsset) :
    List FetchedAsset × Nat :=
  let validAssets := batch.filter oc.assetValid
  if validAssets.length = 0 then ([], 0)
  else
    let results := oc.visionBatchScore validAssets
    let sel := results.filterMap (fun r =>
      match validAssets.get? r.1 with
      | none => none
      | some asset => keepMedia asset r.2)
    (sel, 1)

/-- `decision_reasoning?.media_use_strategy` as read by the matcher. -/
def mapStrategy (m : SemanticMap) : Option String :=
  m.decision_reasoning.bind (fun d => d.media_use_strategy)

/-- `runRelevanceMatching()`: early exit on no fetched assets; the
img2img / style-transfer bypass auto-accepts every candidate without any
scoring call; otherwise intent is extracted and candidates are scored per
modality and filtered at `MIN_SCORE`.  (The stage-4 evaluation-metrics
bookkeeping at the end of the source function only writes metrics fields
and is not modelled.) -/
def runRelevanceMatching (oc : RelevanceOracles) (m : SemanticMap) :
    RelevanceResult :=
  if m.fetched_assets.length = 0 then ⟨m, 0⟩
  else if mapStrategy m = some "img2img" ∨ mapStrategy m = some "style_transfer" then
    ⟨{ m with relevant_assets := m.fetched_assets.map rebaseAsset }, 0⟩
  else
    let intent := oc.extractIntent (m.user_prompt.getD "")
    let mediaToScore := m.fetched_assets.filter
      (fun a => decide (a.type = .image) || decide (a.type = .video))
    let audioAssets := m.fetched_assets.filter (fun a => decide (a.type = .audio))
    let audioRun : Bool := decide (mediaToScore.length = 0) && decide (audioAssets.length > 0)
    let audioSel := if audioRun then audioAssets.filterMap (keepAudio oc intent) else []
    let audioCalls := if audioRun then audioAssets.length else 0
    let batchResults := (toBatches mediaToScore).map (processBatch oc)
    let mediaSel := (batchResults.map Prod.fst).flatten
    let visionCalls := (batchResults.map Prod.snd).sum
    ⟨{ m with relevant_assets := audioSel ++ mediaSel }, 1 + audioCalls + visionCalls⟩

/-! ## Asset identity and dedup (src/scraping/fetchAssets.ts, `fetchAndSave`)

`sha256Bytes` (node:crypto) is abstracted as a pure function of the raw
bytes — `hashFn` — exactly as the source computes it once per download at
ingestion; the HTTP downloader is an oracle returning the saved file and
its content bytes (`none` models a thrown/failed download, which the loop
catches and skips). -/

structure ScrapedItem where
  type : MediaType
  mediaUrl : Option String := none
  source : String := ""
  pageUrl : Option String := none
  alt : Option String := none
  query : Option String := none
deriving DecidableEq, Repr

structure DownloadResult where
  filePath : String
  content : List Nat
  width : Nat := 0
  height : Nat := 0
deriving DecidableEq, Repr

/-- The hash `downloadToDir` attaches to a download:
`sha256Bytes(content)` — a function of the raw bytes alone. -/
def downloadHash (hashFn : List Nat → String) (r : DownloadResult) : String :=
  hashFn r.content

/-- `fetchAndSave(items)` with an explicit `seenHashes` accumulator:
falsy media URLs are skipped, failed downloads are caught and skipped, and
a candidate whose content hash was already seen in this pass is discarded
(its file deleted) before it can reach scoring. -/
def fetchAndSave (hashFn : List Nat → String)
    (download : String → Option DownloadResult) :
    List ScrapedItem → List String → List FetchedAsset
  | [], _ => []
  | item :: rest, seen =>
    if (item.mediaUrl.getD "").isEmpty then fetchAndSave hashFn download rest seen
    else
      match download (item.mediaUrl.getD "") with
      | none => fetchAndSave hashFn download rest seen
      | some r =>
        if hashFn r.content ∈ seen then fetchAndSave hashFn download rest seen
        else
          { type := item.type, filename := r.filePath, source := item.source,
            alt := item.alt, query_used := item.query,
            sha256 := hashFn r.content } ::
            fetchAndSave hashFn download rest (hashFn r.content :: seen)

/-! ## Concrete fixtures used by witnesses and counterexamples -/

/-- The user-media record Stage 1 resolves for the transform fixture. -/
def transformUM : UserMedia :=
  { provided := true, modality := .image, role := .transform, file_path := "u.jpg" }

/-- Stage oracles for a directed transform run: Stage 1 resolves the media
role to `transform`, the relevance pass rejects everything. -/
def transformRunStages : Stages :=
  { promptUnderstanding := fun _ m => .ok m
    decisionReasoning := fun _ m => .ok { m with user_media := some transformUM }
    fetchAssets := fun m => .ok m
    generateWithFal := fun m => .ok m
    relevanceMatching := fun m => .ok { m with relevant_assets := [] }
    assetClassification := fun m => .ok m }

def transformRunMap : SemanticMap := { user_prompt := some "p" }

/-- The semantic map after one pass of `transformRunStages`. -/
def transformRunFinalMap : SemanticMap :=
  { user_prompt := some "p", user_media := some transformUM, relevant_assets := [] }

def transformRunInfo : PassInfo :=
  { decision := "", resolvedRole := some .transform, isTransformRun := true,
    satisfactionThreshold := 1, relevantCount := 0 }

/-- Stage oracles for an open-ended run that never finds relevant assets:
no user media, relevance filter always rejects everything. -/
def exhaustRunStages : Stages :=
  { promptUnderstanding := fun _ m => .ok m
    decisionReasoning := fun _ m => .ok { m with user_media := none, decision_reasoning := none }
    fetchAssets := fun m => .ok m
    generateWithFal := fun m => .ok m
    relevanceMatching := fun m => .ok { m with relevant_assets := [] }
    assetClassification := fun m => .ok m }

/-- The map produced by one pass of `exhaustRunStages` over `mIn`. -/
def exhaustPassOut (mIn : SemanticMap) : SemanticMap :=
  { mIn with user_media := none, decision_reasoning := none, relevant_assets := [] }

/-- The pass info produced by one pass of `exhaustRunStages`. -/
def exhaustPassInfo : PassInfo :=
  { decision := "", resolvedRole := none, isTransformRun := false,
    satisfactionThreshold := 3, relevantCount := 0 }

/-- Stage oracles where Stage 2 is the real (embedded) decision-reasoning
module; on a map with no `user_prompt` it throws its precondition error. -/
def cfgFailStages : Stages :=
  { promptUnderstanding := fun _ m => .ok m
    decisionReasoning := fun n m =>
      (runDecisionReasoning (fun _ => "") (fun _ => none) m n).map (fun out => out.map)
    fetchAssets := fun m => .ok m
    generateWithFal := fun m => .ok m
    relevanceMatching := fun m => .ok m
    assetClassification := fun m => .ok m }

/-- A semantic map with no `user_prompt`: required prior-stage state missing. -/
def cfgFailMap : SemanticMap := {}

def cfgFailMsg : String :=
  "Semantic map not found. Please run prompt understanding first."

/-- A distinguishable marker: fetch writes this asset into the map. -/
def markerAsset : FetchedAsset := { type := .image, filename := "marker.jpg" }

/-- Stage oracles whose fetch stage observably changes the map. -/
def markerStages : Stages :=
  { promptUnderstanding := fun _ m => .ok m
    decisionReasoning := fun _ m => .ok m
    fetchAssets := fun m => .ok { m with fetched_assets := [markerAsset] }
    generateWithFal := fun m => .ok m
    relevanceMatching := fun m => .ok m
    assetClassification := fun m => .ok m }

/-- A map whose committed decision is the string `enhance_existing_asset`. -/
def enhanceMap : SemanticMap :=
  { user_prompt := some "p"
    decision_reasoning := some
      { reasoning_trace := "", final_decision := "enhance_existing_asset",
        confidence := 1/2 } }

/-- Scoring oracles that are never actually consulted on the bypass path. -/
def trivialOracles : RelevanceOracles :=
  { extractIntent := fun _ => {}
    gptAudioScore := fun _ => none
    assetValid := fun _ => true
    visionBatchScore := fun _ => [] }

/-- Scoring oracles whose audio scorer always returns `s`. -/
def audioScoreOracle (s : ℚ) : RelevanceOracles :=
  { extractIntent := fun _ => {}
    gptAudioScore := fun _ => some s
    assetValid := fun _ => true
    visionBatchScore := fun _ => [] }

/-- A committed img2img decision with one generated candidate. -/
def bypassMap : SemanticMap :=
  { user_prompt := some "p"
    decision_reasoning := some
      { reasoning_trace := "", final_decision := "generate_with_model",
        confidence := 97/100, media_use_strategy := some "img2img" }
    fetched_assets := [markerAsset] }

/-- One fetched audio candidate. -/
def audioAssetFx : FetchedAsset := { type := .audio, filename := "rain.mp3" }

/-- A map holding only the one audio candidate. -/
def audioOnlyMap : SemanticMap :=
  { user_prompt := some "p", fetched_assets := [audioAssetFx] }

/-- A demonstration hash function for the dedup witness. -/
def demoHashFn : List Nat → String := fun bytes => toString bytes

/-- Two providers serving byte-identical files under different URLs. -/
def demoDownload : String → Option DownloadResult := fun url =>
  if url = "u1" then some { filePath := "f1.jpg", content := [1, 2, 3] }
  else if url = "u2" then some { filePath := "f2.jpg", content := [1, 2, 3] }
  else none

def demoItem1 : ScrapedItem :=
  { type := .image, mediaUrl := some "u1", source := "unsplash" }

def demoItem2 : ScrapedItem :=
  { type := .image, mediaUrl := some "u2", source := "pexels" }

end Helmer

namespace Helmer

/-! ## Theorems: decision engine -/

/-- `commit` always stamps a decision record whose `final_decision` and
`confidence` are the values it was handed, whatever the media fields. -/
theorem commitDecision_spec (m : SemanticMap) (dec r : String) (c : ℚ) :
    ∃ d : EnrichedDecision,
      (commitDecision m dec r c).decision_reasoning = some d ∧
      d.final_decision = dec ∧ d.confidence = c := by
  unfold commitDecision
  cases m.user_media with
  | none => exact ⟨_, rfl, rfl, rfl⟩
  | some um =>
    by_cases h : um.provided
    · simp only [h, if_true]
      split
      · exact ⟨_, rfl, rfl, rfl⟩
      · exact ⟨_, rfl, rfl, rfl⟩
    · simp only [h, if_false]
      exact ⟨_, rfl, rfl, rfl⟩

/-- C1: for every intent (realism score, market-availability estimate,
attempt number, previous results) and every reasoning-service behaviour,
if user media is provided with role `transform` or `style_guide`, then
`runDecisionReasoning` returns `final_decision = "generate_with_model"`
with confidence ≥ 0.9 and never consults the LLM fallback classifier. -/
theorem decision_transform_override
    (ask : SemanticMap → String) (parse : String → Option ParsedDecision)
    (m : SemanticMap) (n : Nat) (um : UserMedia)
    (hp : m.user_prompt.isSome)
    (hm : m.user_media = some um)
    (hprov : um.provided = true)
    (hrole : um.role = .transform ∨ um.role = .style_guide) :
    ∃ out : DecisionOutcome,
      runDecisionReasoning ask parse m n = .ok out ∧
      out.usedLLM = false ∧
      ∃ d : EnrichedDecision,
        out.map.decision_reasoning = some d ∧
        d.final_decision = "generate_with_model" ∧
        (9/10 : ℚ) ≤ d.confidence := by
  have hp' : m.user_prompt.isNone = false := by
    cases h : m.user_prompt with
    | none => rw [h] at hp; simp [Option.isSome] at hp
    | some p => simp [Option.isNone]
  rcases hrole with hrole | hrole
  · have hrun : runDecisionReasoning ask parse m n =
        .ok ⟨commitDecision m "generate_with_model" transformReasonMsg (97/100), false⟩ := by
      simp [runDecisionReasoning, hp', hm, hprov, hrole]
    obtain ⟨d, hd, hfin, hconf⟩ :=
      commitDecision_spec m "generate_with_model" transformReasonMsg (97/100)
    exact ⟨_, hrun, rfl, d, hd, hfin, by rw [hconf]; norm_num⟩
  · have hrun : runDecisionReasoning ask parse m n =
        .ok ⟨commitDecision m "generate_with_model" styleGuideReasonMsg (95/100), false⟩ := by
      simp [runDecisionReasoning, hp', hm, hprov, hrole]
    obtain ⟨d, hd, hfin, hconf⟩ :=
      commitDecision_spec m "generate_with_model" styleGuideReasonMsg (95/100)
    exact ⟨_, hrun, rfl, d, hd, hfin, by rw [hconf]; norm_num⟩

/-- Witness for `decision_transform_override` at a concrete transform run. -/
theorem decision_transform_override_witness :
    ∃ out : DecisionOutcome,
      runDecisionReasoning (fun _ => "") (fun _ => none)
        { user_prompt := some "make it rainy"
          user_media := some
            { provided := true, modality := .image, role := .transform
              file_path := "upload.jpg" } } 1 = .ok out ∧
      out.usedLLM = false ∧
      ∃ d : EnrichedDecision,
        out.map.decision_reasoning = some d ∧
        d.final_decision = "generate_with_model" ∧
        (9/10 : ℚ) ≤ d.confidence :=
  decision_transform_override (fun _ => "") (fun _ => none) _ 1
    { provided := true, modality := .image, role := .transform, file_path := "upload.jpg" }
    (by decide) rfl rfl (Or.inl rfl)

/-- In the ambiguous zone, `decisionReasoningRest` with an unparsable
response commits the hybrid fallback decision with confidence 0.6. -/
theorem decisionReasoningRest_parse_failure
    (ask : SemanticMap → String) (parse : String → Option ParsedDecision)
    (m : SemanticMap) (n : Nat)
    (hretry : ¬ (n > 1 ∧ m.relevant_assets.length = 0))
    (hscar : ¬ (scarcityOf m < 3/10))
    (hfetch : ¬ (realismOf m > 8/10 ∧ scarcityOf m > 7/10))
    (hreal : ¬ (realismOf m < 3/10))
    (hparse : parse (ask m) = none) :
    decisionReasoningRest ask parse m n =
      ⟨commitDecision m "hybrid_fetch_and_enhance" parseFailureMsg (3/5), true⟩ := by
  simp only [decisionReasoningRest]
  rw [if_neg hretry, if_neg hscar, if_neg hfetch, if_neg hreal, hparse]
  rfl

/-- C7: for every reasoning-service response in the ambiguous decision zone
that is not parseable as the expected JSON, `runDecisionReasoning` returns
`hybrid_fetch_and_enhance` with confidence 0.6 via the LLM path, and does
not raise an error. -/
theorem decision_parse_failure_hybrid
    (ask : SemanticMap → String) (parse : String → Option ParsedDecision)
    (m : SemanticMap) (n : Nat)
    (hp : m.user_prompt.isSome)
    (hmedia : ∀ um : UserMedia, m.user_media = some um → um.provided = true →
      um.role = .reference ∨ um.role = .replace)
    (hretry : ¬ (n > 1 ∧ m.relevant_assets.length = 0))
    (hscar : ¬ (scarcityOf m < 3/10))
    (hfetch : ¬ (realismOf m > 8/10 ∧ scarcityOf m > 7/10))
    (hreal : ¬ (realismOf m < 3/10))
    (hparse : parse (ask m) = none) :
    ∃ out : DecisionOutcome,
      runDecisionReasoning ask parse m n = .ok out ∧
      out.usedLLM = true ∧
      ∃ d : EnrichedDecision,
        out.map.decision_reasoning = some d ∧
        d.final_decision = "hybrid_fetch_and_enhance" ∧
        d.confidence = 3/5 := by
  have hp' : m.user_prompt.isNone = false := by
    cases h : m.user_prompt with
    | none => rw [h] at hp; simp [Option.isSome] at hp
    | some p => simp [Option.isNone]
  have hout : runDecisionReasoning ask parse m n =
      .ok (decisionReasoningRest ask parse m n) := by
    cases hm : m.user_media with
    | none => simp [runDecisionReasoning, hp', hm]
    | some um =>
      by_cases hprov : um.provided
      · rcases hmedia um hm hprov with hrole | hrole <;>
          simp [runDecisionReasoning, hp', hm, hprov, hrole]
      · simp [runDecisionReasoning, hp', hm, hprov]
  rw [decisionReasoningRest_parse_failure ask parse m n hretry hscar hfetch hreal hparse] at hout
  obtain ⟨d, hd, hfin, hconf⟩ :=
    commitDecision_spec m "hybrid_fetch_and_enhance" parseFailureMsg (3/5)
  exact ⟨_, hout, rfl, d, hd, hfin, hconf⟩

/-- Witness for `decision_parse_failure_hybrid`: an ambiguous intent
(realism and availability defaulting to 0.5, no user media) with an
unparsable service response. -/
theorem decision_parse_failure_hybrid_witness :
    ∃ out : DecisionOutcome,
      runDecisionReasoning (fun _ => "not json") (fun _ => none)
        { user_prompt := some "a calm lake" } 1 = .ok out ∧
      out.usedLLM = true ∧
      ∃ d : EnrichedDecision,
        out.map.decision_reasoning = some d ∧
        d.final_decision = "hybrid_fetch_and_enhance" ∧
        d.confidence = 3/5 :=
  decision_parse_failure_hybrid (fun _ => "not json") (fun _ => none)
    { user_prompt := some "a calm lake" } 1
    (by decide)
    (by intro um hum; simp at hum)
    (by decide)
    (by simp [scarcityOf]; norm_num)
    (by simp [realismOf, scarcityOf]; norm_num)
    (by simp [realismOf]; norm_num)
    rfl

/-! ## Theorems: orchestrator loop -/

/-- Inversion for a successful pass: the satisfaction threshold and the
transform flag are computed from the resolved role, and the relevant count
is read back from the map the pass produced. -/
theorem orchestratorPass_info (st : Stages) (p : String) (n : Nat)
    (m m' : SemanticMap) (info : PassInfo)
    (h : orchestratorPass st p n m = .ok (m', info)) :
    (info.isTransformRun = true ↔
      (info.resolvedRole = some .transform ∨ info.resolvedRole = some .style_guide)) ∧
    info.satisfactionThreshold = (if info.isTransformRun then 1 else 3) ∧
    info.relevantCount = m'.relevant_assets.length := by
  unfold orchestratorPass at h
  split at h
  · exact absurd h (by simp)
  · split at h
    · exact absurd h (by simp)
    · split at h
      · exact absurd h (by simp)
      · split at h
        · exact absurd h (by simp)
        · split at h
          · exact absurd h (by simp)
          · rw [Except.ok.injEq, Prod.mk.injEq] at h
            obtain ⟨h1, h2⟩ := h
            subst h1
            subst h2
            refine ⟨?_, rfl, rfl⟩
            simp [mapIsTransformRun]

/-- Exiting the loop with no fuel reports an unsatisfied outcome. -/
theorem orchestratorLoop_zero (st : Stages) (ip cp : String) (a ps : Nat)
    (m : SemanticMap) :
    orchestratorLoop st ip 0 cp a ps m =
      { satisfied := false, attempts := a, passes := ps, finalMap := m } := rfl

/-- A stage error in a pass is caught: the attempt counter goes up and the
loop re-enters with the same prompt and map. -/
theorem orchestratorLoop_succ_err (st : Stages) (ip cp : String)
    (fuel a ps : Nat) (m : SemanticMap) (e : String)
    (h : orchestratorPass st cp (a + 1) m = .error e) :
    orchestratorLoop st ip (fuel + 1) cp a ps m =
      orchestratorLoop st ip fuel cp (a + 1) (ps + 1) m := by
  simp [orchestratorLoop, h]

/-- Meeting the satisfaction threshold ends the loop successfully. -/
theorem orchestratorLoop_succ_sat (st : Stages) (ip cp : String)
    (fuel a ps : Nat) (m m' : SemanticMap) (info : PassInfo)
    (h : orchestratorPass st cp (a + 1) m = .ok (m', info))
    (hsat : info.satisfactionThreshold ≤ info.relevantCount) :
    orchestratorLoop st ip (fuel + 1) cp a ps m =
      { satisfied := true, attempts := a, passes := ps + 1, finalMap := m' } := by
  simp [orchestratorLoop, h, hsat]

/-- A transform run that misses the threshold is still accepted. -/
theorem orchestratorLoop_succ_transform (st : Stages) (ip cp : String)
    (fuel a ps : Nat) (m m' : SemanticMap) (info : PassInfo)
    (h : orchestratorPass st cp (a + 1) m = .ok (m', info))
    (hnsat : ¬ info.satisfactionThreshold ≤ info.relevantCount)
    (ht : info.isTransformRun = true) :
    orchestratorLoop st ip (fuel + 1) cp a ps m =
      { satisfied := true, attempts := a, passes := ps + 1, finalMap := m' } := by
  simp [orchestratorLoop, h, hnsat, ht]

/-- A non-transform run that misses the threshold mutates the prompt,
increments the attempt counter and loops. -/
theorem orchestratorLoop_succ_retry (st : Stages) (ip cp : String)
    (fuel a ps : Nat) (m m' : SemanticMap) (info : PassInfo)
    (h : orchestratorPass st cp (a + 1) m = .ok (m', info))
    (hnsat : ¬ info.satisfactionThreshold ≤ info.relevantCount)
    (ht : info.isTransformRun = false) :
    orchestratorLoop st ip (fuel + 1) cp a ps m =
      orchestratorLoop st ip fuel (retryPrompt ip) (a + 1) (ps + 1) m' := by
  simp [orchestratorLoop, h, hnsat, ht]

/-- C2: the satisfaction threshold is 1 when the resolved user-media role is
`transform` or `style_guide` and 3 otherwise; and a transform/style-guide
run whose relevance pass yields zero relevant assets is still accepted on
the spot — satisfied after that single pass, with no retry. -/
theorem orchestrator_transform_threshold_and_accept :
    (∀ (st : Stages) (p : String) (n : Nat) (m m' : SemanticMap) (info : PassInfo),
      orchestratorPass st p n m = .ok (m', info) →
      info.satisfactionThreshold =
        (if info.resolvedRole = some UserMediaRole.transform ∨
            info.resolvedRole = some UserMediaRole.style_guide then 1 else 3)) ∧
    (∀ (st : Stages) (p : String) (m0 m' : SemanticMap) (info : PassInfo),
      orchestratorPass st p 1 m0 = .ok (m', info) →
      info.isTransformRun = true →
      info.relevantCount = 0 →
      runOrchestrator st p m0 =
        { satisfied := true, attempts := 0, passes := 1, finalMap := m' }) := by
  constructor
  · intro st p n m m' info h
    obtain ⟨hiff, hth, _⟩ := orchestratorPass_info st p n m m' info h
    by_cases hrole : info.resolvedRole = some UserMediaRole.transform ∨
        info.resolvedRole = some UserMediaRole.style_guide
    · rw [if_pos hrole, hth, hiff.mpr hrole]
      rfl
    · rw [if_neg hrole, hth]
      have : info.isTransformRun = false := by
        cases hb : info.isTransformRun
        · rfl
        · exact absurd (hiff.mp hb) hrole
      rw [this]
      rfl
  · intro st p m0 m' info h ht hz
    obtain ⟨_, hth, _⟩ := orchestratorPass_info st p 1 m0 m' info h
    have hnsat : ¬ info.satisfactionThreshold ≤ info.relevantCount := by
      simp [hth, ht, hz]
    have := orchestratorLoop_succ_transform st p p MAX_RETRIES 0 0 m0 m' info h hnsat ht
    simpa [runOrchestrator] using this

/-- Witness for `orchestrator_transform_threshold_and_accept` on a concrete
transform run whose relevance pass rejects everything. -/
theorem orchestrator_transform_accept_witness :
    runOrchestrator transformRunStages "p" transformRunMap =
      { satisfied := true, attempts := 0, passes := 1,
        finalMap := transformRunFinalMap } :=
  orchestrator_transform_threshold_and_accept.2 transformRunStages "p"
    transformRunMap transformRunFinalMap transformRunInfo rfl rfl rfl

/-- With stages that never produce a transform run and never reach three
relevant assets, every remaining unit of fuel is spent on one more failed
pass: the loop reports an unsatisfied outcome after exactly `fuel` passes. -/
theorem orchestratorLoop_exhaust (st : Stages) (ip : String)
    (hpass : ∀ (q : String) (n : Nat) (mIn mOut : SemanticMap) (info : PassInfo),
      orchestratorPass st q n mIn = .ok (mOut, info) →
      info.isTransformRun = false ∧ info.relevantCount < 3) :
    ∀ (fuel : Nat) (cp : String) (a ps : Nat) (m : SemanticMap),
      (orchestratorLoop st ip fuel cp a ps m).satisfied = false ∧
      (orchestratorLoop st ip fuel cp a ps m).attempts = a + fuel ∧
      (orchestratorLoop st ip fuel cp a ps m).passes = ps + fuel := by
  intro fuel
  induction fuel with
  | zero => intro cp a ps m; exact ⟨rfl, rfl, rfl⟩
  | succ fuel ih =>
    intro cp a ps m
    cases hp : orchestratorPass st cp (a + 1) m with
    | error e =>
      rw [orchestratorLoop_succ_err st ip cp fuel a ps m e hp]
      obtain ⟨h1, h2, h3⟩ := ih cp (a + 1) (ps + 1) m
      exact ⟨h1, by omega, by omega⟩
    | ok r =>
      obtain ⟨m', info⟩ := r
      obtain ⟨ht, hc⟩ := hpass cp (a + 1) m m' info hp
      obtain ⟨_, hth, _⟩ := orchestratorPass_info st cp (a + 1) m m' info hp
      have hnsat : ¬ info.satisfactionThreshold ≤ info.relevantCount := by
        simp [hth, ht]
        omega
      rw [orchestratorLoop_succ_retry st ip cp fuel a ps m m' info hp hnsat ht]
      obtain ⟨h1, h2, h3⟩ := ih (retryPrompt ip) (a + 1) (ps + 1) m'
      exact ⟨h1, by omega, by omega⟩

/-- C3: in a run where every pass is a non-transform attempt yielding fewer
than 3 relevant assets, the orchestrator executes exactly
`MAX_RETRIES + 1 = 3` passes and then terminates normally (it returns a
`RunResult`, never an exception) with the unsatisfied outcome reported. -/
theorem orchestrator_exhausts_after_three_passes (st : Stages)
    (p : String) (m0 : SemanticMap)
    (hpass : ∀ (q : String) (n : Nat) (mIn mOut : SemanticMap) (info : PassInfo),
      orchestratorPass st q n mIn = .ok (mOut, info) →
      info.isTransformRun = false ∧ info.relevantCount < 3) :
    (runOrchestrator st p m0).satisfied = false ∧
    (runOrchestrator st p m0).attempts = 3 ∧
    (runOrchestrator st p m0).passes = 3 := by
  have h := orchestratorLoop_exhaust st p hpass (MAX_RETRIES + 1) p 0 0 m0
  simpa [runOrchestrator, MAX_RETRIES] using h

/-- Witness for `orchestrator_exhausts_after_three_passes` on concrete
stages that always reject every candidate. -/
theorem orchestrator_exhausts_witness :
    (runOrchestrator exhaustRunStages "p" transformRunMap).satisfied = false ∧
    (runOrchestrator exhaustRunStages "p" transformRunMap).attempts = 3 ∧
    (runOrchestrator exhaustRunStages "p" transformRunMap).passes = 3 := by
  apply orchestrator_exhausts_after_three_passes
  intro q n mIn mOut info h
  have h2 : orchestratorPass exhaustRunStages q n mIn =
      .ok (exhaustPassOut mIn, exhaustPassInfo) := rfl
  rw [h2, Except.ok.injEq, Prod.mk.injEq] at h
  obtain ⟨h1, hInfo⟩ := h
  subst hInfo
  exact ⟨rfl, by decide⟩

/-! ## Theorems: error handling in the loop -/

/-- C8 (amended): when any pipeline stage inside an orchestrator attempt
raises an error — a configuration/precondition failure such as the missing
semantic map included — the orchestrator catches it, increments the attempt
counter and re-enters the loop with the same prompt and map instead of
aborting the run. -/
theorem orchestrator_error_increments_and_retries
    (st : Stages) (ip cp : String) (fuel a ps : Nat) (m : SemanticMap) (e : String)
    (h : orchestratorPass st cp (a + 1) m = .error e) :
    orchestratorLoop st ip (fuel + 1) cp a ps m =
      orchestratorLoop st ip fuel cp (a + 1) (ps + 1) m := by
  simp [orchestratorLoop, h]

/-- Witness for `orchestrator_error_increments_and_retries`: the real
decision-reasoning stage throwing its missing-map precondition error on
attempt 1 sends the loop into attempt 2. -/
theorem orchestrator_error_retries_witness :
    orchestratorLoop cfgFailStages "p" 3 "p" 0 0 cfgFailMap =
      orchestratorLoop cfgFailStages "p" 2 "p" 1 1 cfgFailMap :=
  orchestrator_error_increments_and_retries cfgFailStages "p" "p" 2 0 0
    cfgFailMap cfgFailMsg rfl

/-- Counterexample to C8 as stated: a configuration/precondition failure
(`runDecisionReasoning` throwing because the semantic map has no
`user_prompt`) does NOT abort the run immediately — the orchestrator
retries it like any other stage error and runs all 3 passes. -/
theorem orchestrator_config_error_retried_counterexample :
    cfgFailStages.decisionReasoning 1 cfgFailMap = .error cfgFailMsg ∧
    (runOrchestrator cfgFailStages "p" cfgFailMap).passes = 3 ∧
    ¬ (runOrchestrator cfgFailStages "p" cfgFailMap).passes = 1 ∧
    (runOrchestrator cfgFailStages "p" cfgFailMap).satisfied = false :=
  ⟨rfl, rfl, by decide, rfl⟩

/-! ## Theorems: unrecognized decision values -/

/-- C10 (amended): in `runOrchestrator` every committed decision other than
the three recognized values (an empty or missing decision included) falls
back to the fetch branch; `runUserMediaWorkflow` additionally recognizes
`enhance_existing_asset`, which runs relevance matching WITHOUT fetch, and
falls back to fetch followed by relevance matching for every other
unrecognized decision.  Neither entry point aborts on an unrecognized
decision string. -/
theorem execute_unknown_decision_fallback :
    (∀ (st : Stages) (d : String) (m : SemanticMap),
      d ≠ "generate_with_model" → d ≠ "fetch_from_web" →
      d ≠ "hybrid_fetch_and_enhance" →
      executeDecision st d m = st.fetchAssets m) ∧
    (∀ (st : Stages) (m : SemanticMap),
      workflowDecision m ≠ some "fetch_from_web" →
      workflowDecision m ≠ some "generate_with_model" →
      workflowDecision m ≠ some "enhance_existing_asset" →
      userMediaWorkflowExec st m = fetchThenRelevance st m) ∧
    (∀ (st : Stages) (m : SemanticMap),
      workflowDecision m = some "enhance_existing_asset" →
      userMediaWorkflowExec st m = st.relevanceMatching m) := by
  refine ⟨?_, ?_, ?_⟩
  · intro st d m h1 h2 h3
    unfold executeDecision
    rw [if_neg h1, if_neg (fun hor => Or.elim hor h2 h3)]
  · intro st m h1 h2 h3
    unfold userMediaWorkflowExec
    rw [if_neg h1, if_neg h2, if_neg h3]
  · intro st m h
    simp [userMediaWorkflowExec, h]

/-- Witness for `execute_unknown_decision_fallback` at concrete inputs:
an unrecognized decision string in the orchestrator, a missing decision in
the user-media workflow, and the `enhance_existing_asset` branch. -/
theorem execute_unknown_decision_fallback_witness :
    executeDecision markerStages "enhance_existing_asset" cfgFailMap =
      markerStages.fetchAssets cfgFailMap ∧
    userMediaWorkflowExec markerStages cfgFailMap =
      fetchThenRelevance markerStages cfgFailMap ∧
    userMediaWorkflowExec markerStages enhanceMap =
      markerStages.relevanceMatching enhanceMap :=
  ⟨execute_unknown_decision_fallback.1 markerStages "enhance_existing_asset"
      cfgFailMap (by decide) (by decide) (by decide),
   execute_unknown_decision_fallback.2.1 markerStages cfgFailMap
      (by decide) (by decide) (by decide),
   execute_unknown_decision_fallback.2.2 markerStages enhanceMap rfl⟩

/-- Counterexample to C10 as stated: the committed decision value
`enhance_existing_asset` — not one of the three recognized values — does
NOT fall back to the fetch branch in `runUserMediaWorkflow`: it runs
relevance matching only, observably skipping the fetch stage. -/
theorem usermedia_enhance_skips_fetch_counterexample :
    userMediaWorkflowExec markerStages enhanceMap = .ok enhanceMap ∧
    fetchThenRelevance markerStages enhanceMap =
      .ok { enhanceMap with fetched_assets := [markerAsset] } ∧
    userMediaWorkflowExec markerStages enhanceMap ≠
      fetchThenRelevance markerStages enhanceMap := by
  refine ⟨rfl, rfl, ?_⟩
  intro h
  have h1 : userMediaWorkflowExec markerStages enhanceMap = .ok enhanceMap := rfl
  have h2 : fetchThenRelevance markerStages enhanceMap =
      .ok { enhanceMap with fetched_assets := [markerAsset] } := rfl
  rw [h1, h2, Except.ok.injEq] at h
  have h3 := congrArg SemanticMap.fetched_assets h
  simp [enhanceMap] at h3

/-! ## Theorems: relevance scoring and filtering -/

/-- C5: whatever the scoring oracles and the fetched candidate list, when
the committed media-use strategy is `img2img` (conditioned edit) or
`style_transfer`, relevance matching performs no scoring call and every
input candidate lands (relocated) in the relevant set. -/
theorem relevance_bypass (oc : RelevanceOracles) (m : SemanticMap)
    (h : mapStrategy m = some "img2img" ∨ mapStrategy m = some "style_transfer") :
    (runRelevanceMatching oc m).scoringCalls = 0 ∧
    ∀ a ∈ m.fetched_assets,
      rebaseAsset a ∈ (runRelevanceMatching oc m).map.relevant_assets := by
  by_cases hfe : m.fetched_assets.length = 0
  · have hnil : m.fetched_assets = [] := List.length_eq_zero.mp hfe
    constructor
    · simp [runRelevanceMatching, hfe]
    · intro a ha
      rw [hnil] at ha
      exact absurd ha (List.not_mem_nil a)
  · have hrun : runRelevanceMatching oc m =
        ⟨{ m with relevant_assets := m.fetched_assets.map rebaseAsset }, 0⟩ := by
      unfold runRelevanceMatching
      rw [if_neg hfe, if_pos h]
    constructor
    · rw [hrun]
    · intro a ha
      rw [hrun]
      exact List.mem_map_of_mem rebaseAsset ha

/-- Witness for `relevance_bypass`: a committed img2img decision with one
generated candidate. -/
theorem relevance_bypass_witness :
    (runRelevanceMatching trivialOracles bypassMap).scoringCalls = 0 ∧
    ∀ a ∈ bypassMap.fetched_assets,
      rebaseAsset a ∈ (runRelevanceMatching trivialOracles bypassMap).map.relevant_assets :=
  relevance_bypass trivialOracles bypassMap (Or.inl rfl)

/-- C4 (amended): both keep sites use the same threshold (`MIN_SCORE`, so
the image/video minimum is not stricter than the audio minimum); a scored
candidate is kept iff its score is ≥ that threshold, so one scored exactly
at the threshold is kept and one any epsilon below is dropped — shown both
at the two keep sites and end-to-end for a single scored audio candidate. -/
theorem relevance_threshold_boundary :
    mediaMinScore = audioMinScore ∧
    (∀ (oc : RelevanceOracles) (intent : Intent) (a : FetchedAsset),
      (keepAudio oc intent a).isSome ↔ audioMinScore ≤ scoreAudioAsset oc intent a) ∧
    (∀ (a : FetchedAsset) (s : ℚ), (keepMedia a s).isSome ↔ mediaMinScore ≤ s) ∧
    (∀ s : ℚ,
      (runRelevanceMatching (audioScoreOracle s) audioOnlyMap).map.relevant_assets ≠ []
        ↔ audioMinScore ≤ s) := by
  refine ⟨rfl, ?_, ?_, ?_⟩
  · intro oc intent a
    unfold keepAudio
    split <;> simp_all
  · intro a s
    unfold keepMedia
    split <;> simp_all
  · intro s
    by_cases hs : audioMinScore ≤ s
    · simp [runRelevanceMatching, mapStrategy, audioOnlyMap, audioAssetFx,
        audioScoreOracle, keepAudio, scoreAudioAsset, toBatches, hs]
    · simp [runRelevanceMatching, mapStrategy, audioOnlyMap, audioAssetFx,
        audioScoreOracle, keepAudio, scoreAudioAsset, toBatches, hs]

/-- Counterexample to C4 as stated: the minimum threshold applied to
images/video is NOT strictly higher than the one applied to audio — both
keep sites compare against the same `MIN_SCORE` constant. -/
theorem media_threshold_not_stricter_counterexample :
    mediaMinScore = audioMinScore ∧ ¬ audioMinScore < mediaMinScore :=
  ⟨rfl, by simp [audioMinScore, mediaMinScore]⟩

/-- C9: for every audio candidate and intent, when the token-overlap
heuristic finds no tokens to match it returns the neutral score 0.5 rather
than rejecting the candidate. -/
theorem audio_metadata_neutral (a : FetchedAsset) (intent : Intent)
    (h : intentMatchTokens intent = []) :
    scoreAudioByMetadata a intent = 1/2 := by
  simp [scoreAudioByMetadata, h]

/-- Witness for `audio_metadata_neutral`: an intent with empty subject,
objects and relationships yields no tokens and the neutral score. -/
theorem audio_metadata_neutral_witness :
    intentMatchTokens {} = [] ∧ scoreAudioByMetadata audioAssetFx {} = 1/2 :=
  ⟨by decide, audio_metadata_neutral audioAssetFx {} (by decide)⟩

/-! ## Theorems: asset identity and dedup -/

/-- Invariant of the `fetchAndSave` loop: every saved asset's hash is fresh
w.r.t. the incoming seen-set, and the saved hashes are pairwise distinct. -/
theorem fetchAndSave_spec (hashFn : List Nat → String)
    (download : String → Option DownloadResult) :
    ∀ (items : List ScrapedItem) (seen : List String),
      (∀ a ∈ fetchAndSave hashFn download items seen, a.sha256 ∉ seen) ∧
      (fetchAndSave hashFn download items seen).Pairwise
        (fun a b => a.sha256 ≠ b.sha256) := by
  intro items
  induction items with
  | nil =>
    intro seen
    constructor
    · intro a ha
      simp [fetchAndSave] at ha
    · simp [fetchAndSave]
  | cons item rest ih =>
    intro seen
    by_cases hurl : (item.mediaUrl.getD "").isEmpty
    · have heq : fetchAndSave hashFn download (item :: rest) seen =
          fetchAndSave hashFn download rest seen := by
        simp [fetchAndSave, hurl]
      rw [heq]
      exact ih seen
    · cases hdl : download (item.mediaUrl.getD "") with
      | none =>
        have heq : fetchAndSave hashFn download (item :: rest) seen =
            fetchAndSave hashFn download rest seen := by
          simp [fetchAndSave, hurl, hdl]
        rw [heq]
        exact ih seen
      | some r =>
        by_cases hmem : hashFn r.content ∈ seen
        · have heq : fetchAndSave hashFn download (item :: rest) seen =
              fetchAndSave hashFn download rest seen := by
            simp [fetchAndSave, hurl, hdl, hmem]
          rw [heq]
          exact ih seen
        · have heq : fetchAndSave hashFn download (item :: rest) seen =
              { type := item.type, filename := r.filePath, source := item.source,
                alt := item.alt, query_used := item.query,
                sha256 := hashFn r.content } ::
                fetchAndSave hashFn download rest (hashFn r.content :: seen) := by
            simp [fetchAndSave, hurl, hdl, hmem]
          rw [heq]
          obtain ⟨ihFresh, ihPW⟩ := ih (hashFn r.content :: seen)
          constructor
          · intro a ha
            rcases List.mem_cons.mp ha with rfl | ha2
            · exact hmem
            · intro hin
              exact ihFresh a ha2 (List.mem_cons_of_mem _ hin)
          · refine List.pairwise_cons.mpr ⟨?_, ihPW⟩
            intro b hb hEq
            exact ihFresh b hb (hEq ▸ List.mem_cons_self _ _)

/-- C6: the content hash is a function of the raw bytes alone, so two
byte-identical downloads get the same hash regardless of origin or
provider; within one fetch pass a candidate whose hash was already seen is
discarded outright; and the saved asset list of a pass has pairwise
distinct content hashes. -/
theorem content_hash_identity_and_dedup (hashFn : List Nat → String)
    (download : String → Option DownloadResult) :
    (∀ r1 r2 : DownloadResult, r1.content = r2.content →
      downloadHash hashFn r1 = downloadHash hashFn r2) ∧
    (∀ (item : ScrapedItem) (rest : List ScrapedItem) (seen : List String)
        (r : DownloadResult),
      (item.mediaUrl.getD "").isEmpty = false →
      download (item.mediaUrl.getD "") = some r →
      hashFn r.content ∈ seen →
      fetchAndSave hashFn download (item :: rest) seen =
        fetchAndSave hashFn download rest seen) ∧
    (∀ items : List ScrapedItem,
      (fetchAndSave hashFn download items []).Pairwise
        (fun a b => a.sha256 ≠ b.sha256)) := by
  refine ⟨?_, ?_, ?_⟩
  · intro r1 r2 h
    unfold downloadHash
    rw [h]
  · intro item rest seen r hurl hdl hmem
    simp [fetchAndSave, hurl, hdl, hmem]
  · intro items
    exact (fetchAndSave_spec hashFn download items []).2

/-- Witness for `content_hash_identity_and_dedup`: two providers serving
the same bytes — equal hashes, the second occurrence discarded, and a
duplicate-free saved list. -/
theorem content_hash_dedup_witness :
    downloadHash demoHashFn { filePath := "f1.jpg", content := [1, 2, 3] } =
      downloadHash demoHashFn { filePath := "f2.jpg", content := [1, 2, 3] } ∧
    fetchAndSave demoHashFn demoDownload [demoItem2] [demoHashFn [1, 2, 3]] =
      fetchAndSave demoHashFn demoDownload [] [demoHashFn [1, 2, 3]] ∧
    (fetchAndSave demoHashFn demoDownload [demoItem1, demoItem2] []).Pairwise
      (fun a b => a.sha256 ≠ b.sha256) :=
  ⟨(content_hash_identity_and_dedup demoHashFn demoDownload).1
      { filePath := "f1.jpg", content := [1, 2, 3] }
      { filePath := "f2.jpg", content := [1, 2, 3] } rfl,
   (content_hash_identity_and_dedup demoHashFn demoDownload).2.1 demoItem2 []
      [demoHashFn [1, 2, 3]]
      { filePath := "f2.jpg", content := [1, 2, 3] } rfl rfl (by simp),
   (content_hash_identity_and_dedup demoHashFn demoDownload).2.2
      [demoItem1, demoItem2]⟩

